import Mathlib

/-!
Verification of the `galaxia_backend` live-captioning relay.

The program relays audio from call participants to a streaming
transcription backend, paces/deduplicates the recognition events,
translates surviving text per recipient and fans the translated
captions back out over WebSocket connections.

This file gives a shallow embedding of the parts of the program the
claims are about:

* the language-code normalizer (`normalizarCodigoIdioma`,
  `extraerCodigoCorto`, from `server.js` lines 21-47);
* the pacing/dedup filter of the recognition "data" handler
  (`filterStep`, from `server.js` lines 139-151, with the per-session
  state `ultimoTextoProcesado` / `ultimoTimestamp` of lines 80-81);
* the STT-stream "error" handler and its restart guard
  (`onStreamError`, `server.js` lines 95-122);
* the audio "message" handler (`wsOnAudioMessage`, `server.js`
  lines 249-269);
* the room join/leave registry (`roomJoin` / `roomLeave`, `server.js`
  lines 242-243 and 293-299);
* the per-recipient translation fan-out of the revision that targets
  each recipient's own language (`fanOut`, the `createUserStream`
  "data" handler, lines 137-194 of that revision).

Timestamps (`Date.now()`) are embedded as `Int` milliseconds; the
translation backend is embedded as an oracle `String → String →
Option String` (`none` = the remote call throws).
-/

namespace Galaxia

/-! ## Language-code normalizer (`server.js` lines 21-47)

JavaScript strings can also be `null`/`undefined`, so the arguments are
`Option String`; `jsTruthy` is JavaScript truthiness on such a value
(`null`, `undefined` and `""` are falsy). -/

def jsTruthy : Option String → Bool
  | none => false
  | some s => !(s == "")

/-- JavaScript `str.includes(ch)` for a single character, computed on the
character list (kernel-reducible, unlike `String.contains`). -/
def strHasChar (s : String) (c : Char) : Bool :=
  s.data.any (fun d => d == c)

/-- ASCII lowercasing of one character; the language codes the program
handles are ASCII, where JavaScript `toLowerCase` acts exactly like this. -/
def charLower (c : Char) : Char :=
  if c.toNat ≥ 65 && c.toNat ≤ 90 then Char.ofNat (c.toNat + 32) else c

/-- JavaScript `str.toLowerCase()` (on the ASCII range). -/
def strLower (s : String) : String :=
  ⟨s.data.map charLower⟩

/-- The characters before the first `'-'`. -/
def takeUntilDash : List Char → List Char
  | [] => []
  | c :: cs => if c == '-' then [] else c :: takeUntilDash cs

/-- JavaScript `str.split('-')[0]`. -/
def headBeforeDash (s : String) : String :=
  ⟨takeUntilDash s.data⟩

/-- The `mapeo` table of `normalizarCodigoIdioma` (`server.js` lines 26-35). -/
def mapeo : List (String × String) :=
  [("es", "es-ES"), ("en", "en-US"), ("fr", "fr-FR"), ("de", "de-DE"),
   ("it", "it-IT"), ("pt", "pt-PT"), ("zh", "zh-CN"), ("ja", "ja-JP")]

/-- `normalizarCodigoIdioma` (`server.js` lines 21-39): a string that
contains `-` and is longer than 2 characters passes through unchanged;
otherwise the value (defaulted to `"en"` when falsy) is lowercased and
looked up in `mapeo`, falling back to `"en-US"`. -/
def normalizarCodigoIdioma (codigo : Option String) : String :=
  if jsTruthy codigo && strHasChar (codigo.getD "") '-'
      && decide ((codigo.getD "").length > 2) then
    codigo.getD ""
  else
    let base := match codigo with
      | none => "en"
      | some c => if c == "" then "en" else c
    (mapeo.lookup (strLower base)).getD "en-US"

/-- `extraerCodigoCorto` (`server.js` lines 41-47): falsy values give
`"en"`; a string containing `-` is split at the first `-`; anything else
passes through. -/
def extraerCodigoCorto (codigo : Option String) : String :=
  match codigo with
  | none => "en"
  | some c =>
    if c == "" then "en"
    else if strHasChar c '-' then headBeforeDash c
    else c

/-! ## Pacing/dedup filter (`server.js` lines 80-81, 139-151) -/

/-- The per-session dedup state: the local variables
`ultimoTextoProcesado` and `ultimoTimestamp` of `createRecognizeStream`
(`server.js` lines 80-81). A freshly created stream starts with
`ultimoTextoProcesado = ""` and `ultimoTimestamp = Date.now()`. -/
structure DedupState where
  ultimoTextoProcesado : String
  ultimoTimestamp : Int
  deriving DecidableEq, Repr

/-- The state the local variables hold right after
`createRecognizeStream` runs at wall-clock time `t` (`server.js`
lines 80-81). -/
def freshDedupState (t : Int) : DedupState :=
  { ultimoTextoProcesado := "", ultimoTimestamp := t }

/-- One step of the pacing/dedup filter of the `"data"` handler
(`server.js` lines 139-151), for an event with transcript `texto`,
finality `isFinal`, arriving at wall-clock time `ahora`.  Returns
whether the event is accepted (survives to translation and fan-out)
together with the updated state. -/
def filterStep (st : DedupState) (texto : String) (isFinal : Bool)
    (ahora : Int) : Bool × DedupState :=
  let tiempoDesdeUltimo := ahora - st.ultimoTimestamp
  if !isFinal && decide (tiempoDesdeUltimo < 800) then
    (false, st)
  else if texto == st.ultimoTextoProcesado && decide (tiempoDesdeUltimo < 1500) then
    (false, st)
  else
    (true, { ultimoTextoProcesado := texto, ultimoTimestamp := ahora })

/-- A recognition event as seen by the filter: transcript text,
is-final flag, arrival timestamp. -/
structure RecEvent where
  texto : String
  isFinal : Bool
  time : Int
  deriving DecidableEq, Repr

/-- Run the filter over a sequence of recognition events, returning the
list of accepted events (those that reach translation and fan-out). -/
def acceptedEvents (st : DedupState) : List RecEvent → List RecEvent
  | [] => []
  | e :: es =>
    let r := filterStep st e.texto e.isFinal e.time
    if r.1 then e :: acceptedEvents r.2 es else acceptedEvents r.2 es

/-- The three recognition events of the C4 scenario, with times relative
to session creation: interim "hola" at 0 ms, interim "hola" at 100 ms,
final "hola mundo" at 900 ms. -/
def c4Trace : List RecEvent :=
  [⟨"hola", false, 0⟩, ⟨"hola", false, 100⟩, ⟨"hola mundo", true, 900⟩]

/-- Four interim events with identical text whose consecutive gaps are
700 ms, each below the 800 ms pacing interval. -/
def c5FastDupTrace : List RecEvent :=
  [⟨"hola", false, 800⟩, ⟨"hola", false, 1500⟩, ⟨"hola", false, 2200⟩,
   ⟨"hola", false, 2900⟩]

/-! ## STT stream error handler (`server.js` lines 95-122) -/

/-- `startsWithChars hay needle`: `needle` is an initial segment of `hay`. -/
def startsWithChars : List Char → List Char → Bool
  | _, [] => true
  | [], _ :: _ => false
  | c :: cs, d :: ds => c == d && startsWithChars cs ds

/-- `hasSubChars hay needle`: `needle` occurs contiguously in `hay`. -/
def hasSubChars : List Char → List Char → Bool
  | [], needle => needle.isEmpty
  | c :: t, needle => startsWithChars (c :: t) needle || hasSubChars t needle

/-- JavaScript `hay.includes(needle)` for strings. -/
def strIncludes (hay needle : String) : Bool :=
  hasSubChars hay.data needle.data

/-- The underlying Node stream handle, as far as the handlers inspect it:
its `destroyed` and `writable` flags. -/
structure StreamHandle where
  destroyed : Bool
  writable : Bool
  deriving DecidableEq, Repr

/-- One value of the `userStreams` map (`server.js` line 68):
`{ stream, lastAudioTime, isRestarting }` (the `inactivityTimer` field
holds a timer id and carries no program state the claims mention). -/
structure UserStreamEntry where
  stream : Option StreamHandle
  lastAudioTime : Int
  isRestarting : Bool
  deriving DecidableEq, Repr

/-- The error test of the `"error"` handler (`server.js` line 99): the
message must mention `"Audio Timeout"` or `"duration elapsed"`. -/
def errTriggersRestart (msg : String) : Bool :=
  strIncludes msg "Audio Timeout" || strIncludes msg "duration elapsed"

/-- The `"error"` handler of `createRecognizeStream` (`server.js`
lines 95-122) acting on the session's `userStreams` entry (`none` when
the participant has already disconnected).  Returns the updated entry
and whether a delayed stream recreation (`setTimeout(..., 1000)`) was
scheduled.  When it fires, the handler destroys the old stream handle
and sets `isRestarting`; every other error only logs. -/
def onStreamError (msg : String) (entry : Option UserStreamEntry) :
    Option UserStreamEntry × Bool :=
  if errTriggersRestart msg then
    match entry with
    | some e =>
      if !e.isRestarting then
        (some { e with
                  isRestarting := true,
                  stream := e.stream.map
                    (fun h => { h with destroyed := true, writable := false }) },
         true)
      else (some e, false)
    | none => (none, false)
  else (entry, false)

/-! ## Audio message handler (`server.js` lines 249-269) -/

inductive AudioOutcome
  | forwarded
  | dropped
  deriving DecidableEq, Repr

/-- The binary branch of the `ws.on("message")` handler (`server.js`
lines 249-269) for one audio chunk arriving at time `nowT`: if the
session entry exists and is not restarting, `lastAudioTime` is
refreshed and the chunk is written when the stream handle exists, is
not destroyed and is writable; in every other case the chunk is
dropped and no error is raised (write errors are caught and silenced). -/
def wsOnAudioMessage (entry : Option UserStreamEntry) (nowT : Int) :
    Option UserStreamEntry × AudioOutcome :=
  match entry with
  | none => (none, .dropped)
  | some e =>
    if e.isRestarting then (some e, .dropped)
    else
      let e2 := { e with lastAudioTime := nowT }
      match e2.stream with
      | some h =>
        if !h.destroyed && h.writable then (some e2, .forwarded)
        else (some e2, .dropped)
      | none => (some e2, .dropped)

/-! ## Room registry (`server.js` lines 242-243 and 293-299)

One room of the `rooms` map, as `Option (Finset String)`: `none` when
`rooms[callID]` is absent, `some s` when it holds the member set `s`. -/

def roomMembers : Option (Finset String) → Finset String
  | none => ∅
  | some s => s

/-- Join (`server.js` lines 242-243): create the set if absent, add the
participant. -/
def roomJoin (room : Option (Finset String)) (p : String) :
    Option (Finset String) :=
  some (insert p (roomMembers room))

/-- Leave (`server.js` lines 293-299): delete the participant; when the
set becomes empty, delete the room record. -/
def roomLeave (room : Option (Finset String)) (p : String) :
    Option (Finset String) :=
  match room with
  | none => none
  | some s =>
    let s2 := s.erase p
    if s2 = ∅ then none else some s2

inductive RoomOp
  | join (p : String)
  | leave (p : String)
  deriving DecidableEq, Repr

def applyRoomOps (room : Option (Finset String)) : List RoomOp → Option (Finset String)
  | [] => room
  | RoomOp.join p :: ops => applyRoomOps (roomJoin room p) ops
  | RoomOp.leave p :: ops => applyRoomOps (roomLeave room p) ops

/-- The sequences of joins/leaves the server can actually perform on one
room: a connection joins at most once (a currently-present participant
does not re-join) and only a currently-present participant leaves (the
`"close"` handler fires once, for a connection that joined). -/
def ValidOps : Option (Finset String) → List RoomOp → Prop
  | _, [] => True
  | room, RoomOp.join p :: ops => p ∉ roomMembers room ∧ ValidOps (roomJoin room p) ops
  | room, RoomOp.leave p :: ops => p ∈ roomMembers room ∧ ValidOps (roomLeave room p) ops

def numJoins : List RoomOp → Nat
  | [] => 0
  | RoomOp.join _ :: ops => numJoins ops + 1
  | RoomOp.leave _ :: ops => numJoins ops

def numLeaves : List RoomOp → Nat
  | [] => 0
  | RoomOp.join _ :: ops => numLeaves ops
  | RoomOp.leave _ :: ops => numLeaves ops + 1

/-- The size of the room's member set (0 when the record is absent). -/
def roomSize (room : Option (Finset String)) : Nat :=
  (roomMembers room).card

/-- The registry invariant: a room record, when present, is never empty. -/
def RoomWF : Option (Finset String) → Prop
  | none => True
  | some s => s ≠ ∅

/-! ## Per-recipient translation fan-out

The `createUserStream` `"data"` handler of the revision with
per-recipient targeting (lines 137-194 of that file): for each
participant of the call (from `callParticipants[callID]`), skip it when
its `userConnections` entry is missing or its socket is not `OPEN`,
otherwise translate into that recipient's own target language and send
it a payload carrying `isSelf = (recipient === speaker)`.  The
translation backend is an oracle `translate text lang`; `none` models
the remote call throwing, in which case the failure is logged and only
that delivery is skipped. -/

structure Payload where
  userID : String
  texto_original : String
  traduccion : String
  sourceLang : String
  targetLang : String
  timestamp : String
  isSelf : Bool
  deriving DecidableEq, Repr

/-- One entry of `callParticipants[callID]` joined with the liveness
check on `userConnections[recipientUserID]`: `connected` is true when
the connection record exists and its socket is `OPEN`. -/
structure Participant where
  userID : String
  targetLang : String
  connected : Bool
  deriving DecidableEq, Repr

def mkPayload (speakerID texto sourceLangNormalizado timestamp : String)
    (traduccion targetLangCorto recipientUserID : String) : Payload :=
  { userID := speakerID, texto_original := texto, traduccion,
    sourceLang := sourceLangNormalizado, targetLang := targetLangCorto,
    timestamp, isSelf := recipientUserID == speakerID }

/-- The per-recipient loop: returns the deliveries performed, as pairs
of recipient id and payload sent, in participant order. -/
def fanOut (speakerID texto sourceLangNormalizado timestamp : String)
    (participants : List Participant)
    (translate : String → String → Option String) : List (String × Payload) :=
  participants.filterMap fun r =>
    if !r.connected then none
    else
      let targetLangCorto := extraerCodigoCorto (some r.targetLang)
      match translate texto targetLangCorto with
      | none => none
      | some traduccion =>
        some (r.userID,
          mkPayload speakerID texto sourceLangNormalizado timestamp
            traduccion targetLangCorto r.userID)

/-- A concrete total translation oracle (used in witnesses): tags the
text with the target language. -/
def tagTranslate (texto lang : String) : Option String :=
  some (lang ++ ":" ++ texto)

/-- A concrete translation oracle (used in witnesses) whose remote call
fails exactly for target language "fr". -/
def failFrTranslate (texto lang : String) : Option String :=
  if lang == "fr" then none else some (lang ++ ":" ++ texto)

/-! ## Helper lemmas about the filter -/

theorem filterStep_of_reject (st : DedupState) (a : String) (f : Bool) (t : Int)
    (h : (filterStep st a f t).1 = false) : filterStep st a f t = (false, st) := by
  unfold filterStep at h ⊢
  dsimp only at h ⊢
  split_ifs at h ⊢
  all_goals simp_all

theorem filterStep_of_accept (st : DedupState) (a : String) (f : Bool) (t : Int)
    (h : (filterStep st a f t).1 = true) :
    filterStep st a f t = (true, { ultimoTextoProcesado := a, ultimoTimestamp := t }) := by
  unfold filterStep at h ⊢
  dsimp only at h ⊢
  split_ifs at h ⊢
  all_goals simp_all

theorem filterStep_dup (st : DedupState) (a : String) (f : Bool) (t : Int)
    (hd : a = st.ultimoTextoProcesado) (hw : t - st.ultimoTimestamp < 1500) :
    filterStep st a f t = (false, st) := by
  unfold filterStep
  dsimp only
  split_ifs with h1 h2
  · rfl
  · rfl
  · exact absurd (by simp [hd, hw]) h2

theorem acceptedEvents_eq_nil_of_dup (st : DedupState) (events : List RecEvent)
    (h : ∀ e ∈ events, e.texto = st.ultimoTextoProcesado ∧
          e.time - st.ultimoTimestamp < 1500) :
    acceptedEvents st events = [] := by
  induction events with
  | nil => rfl
  | cons e es ih =>
    have he := h e (List.mem_cons_self e es)
    have hstep := filterStep_dup st e.texto e.isFinal e.time he.1 he.2
    simp only [acceptedEvents, hstep]
    exact ih fun e2 h2 => h e2 (List.mem_cons_of_mem e h2)

/-- C3: the pacing/dedup filter accepts a recognition event iff its text
does not restate the last accepted text within the 1500 ms suppression
window (regardless of final/interim status) and, when the event is
interim, at least 800 ms have elapsed since the last accepted event
(finals bypass the interval throttle entirely). -/
theorem filter_accept_characterization (st : DedupState) (texto : String)
    (isFinal : Bool) (ahora : Int) :
    (filterStep st texto isFinal ahora).1 = true ↔
      ¬(texto = st.ultimoTextoProcesado ∧ ahora - st.ultimoTimestamp < 1500) ∧
        (isFinal = true ∨ 800 ≤ ahora - st.ultimoTimestamp) := by
  unfold filterStep
  dsimp only
  split_ifs with h1 h2
  · simp only [Bool.and_eq_true, Bool.not_eq_true', decide_eq_true_eq] at h1
    simp only [Bool.false_eq_true, false_iff, not_and]
    intro _ hor
    rcases hor with hf | hge
    · exact absurd hf (by simp [h1.1])
    · omega
  · simp only [Bool.and_eq_true, beq_iff_eq, decide_eq_true_eq] at h2
    simp only [Bool.false_eq_true, false_iff]
    rintro ⟨hnd, -⟩
    exact hnd h2
  · simp only [true_iff]
    constructor
    · intro hc
      exact h2 (by simp [hc.1, hc.2])
    · by_cases hf : isFinal
      · exact Or.inl hf
      · right
        by_contra hlt
        refine h1 ?_
        simp only [Bool.not_eq_true] at hf
        simp only [hf, Bool.not_false, Bool.true_and, decide_eq_true_eq]
        omega

/-- C4 counterexample: the claim predicts the filter accepts two of the
three events (the first and the third) and fans out exactly two
payloads; on the code the session's `ultimoTimestamp` starts at the
creation time, so the interim at t = 0 fails the 800 ms throttle and is
dropped — only one event is accepted. -/
theorem c4_scenario_counterexample :
    (acceptedEvents (freshDedupState 0) c4Trace).length ≠ 2 := by decide

/-- C4 amended: for the C4 scenario the filter drops both interims (the
interval throttle is measured from session creation, so the interim at
t = 0 is also dropped) and accepts exactly the final "hola mundo" at
t = 900 — exactly one Translated Payload is fanned out. -/
theorem c4_scenario_amended :
    acceptedEvents (freshDedupState 0) c4Trace = [⟨"hola mundo", true, 900⟩] := by
  decide

/-- C5 counterexample: the claim says such a sequence yields at most one
accepted event, but the events at t = 800 and t = 2900 are both
accepted (the second one falls outside the 1500 ms suppression window
of the first even though every consecutive gap is below the pacing
interval). -/
theorem fast_dup_interims_counterexample :
    ¬(acceptedEvents (freshDedupState 0) c5FastDupTrace).length ≤ 1 := by decide

/-- C5 amended: for every sequence of recognition events with identical
text (interim or final) whose arrival times all lie within the 1500 ms
duplicate-suppression window of one another, the filter accepts at most
one event of the sequence — in particular a final restating the
accepted text within the window is dropped.  (Once the sequence spans
at least 1500 ms a second identical event can be accepted, even when
every consecutive gap is below the pacing interval.) -/
theorem same_text_events_in_window_at_most_one (st : DedupState) (s : String)
    (events : List RecEvent)
    (htext : ∀ e ∈ events, e.texto = s)
    (hspan : ∀ e ∈ events, ∀ e2 ∈ events, e.time - e2.time < 1500) :
    (acceptedEvents st events).length ≤ 1 := by
  induction events generalizing st with
  | nil => simp [acceptedEvents]
  | cons e es ih =>
    by_cases hacc : (filterStep st e.texto e.isFinal e.time).1 = true
    · have hstep := filterStep_of_accept st e.texto e.isFinal e.time hacc
      have htail : acceptedEvents
          { ultimoTextoProcesado := e.texto, ultimoTimestamp := e.time } es = [] := by
        apply acceptedEvents_eq_nil_of_dup
        intro e2 h2
        refine ⟨?_, ?_⟩
        · show e2.texto = e.texto
          rw [htext e2 (List.mem_cons_of_mem e h2), htext e (List.mem_cons_self e es)]
        · exact hspan e2 (List.mem_cons_of_mem e h2) e (List.mem_cons_self e es)
      simp [acceptedEvents, hstep, htail]
    · have hstep := filterStep_of_reject st e.texto e.isFinal e.time
        (by simpa using hacc)
      simp only [acceptedEvents, hstep]
      exact ih st (fun e2 h2 => htext e2 (List.mem_cons_of_mem e h2))
        (fun e2 h2 e3 h3 =>
          hspan e2 (List.mem_cons_of_mem e h2) e3 (List.mem_cons_of_mem e h3))

/-- Witness for the C5 amended theorem: two identical interims 400 ms
apart, both within one suppression window; at most one is accepted. -/
theorem same_text_events_in_window_at_most_one_witness :
    (acceptedEvents (freshDedupState 0)
      [⟨"hola", false, 800⟩, ⟨"hola", false, 1200⟩]).length ≤ 1 :=
  same_text_events_in_window_at_most_one (freshDedupState 0) "hola" _
    (by decide) (by decide)

/-- C6 counterexample: final "hola" is accepted at t = 0 (state
⟨"hola", 0⟩); the stream is recreated at t = 100; the same text
re-arrives as an interim at t = 200 — within the 1500 ms suppression
window of the pre-recreation acceptance, so the claim says it is
accepted again.  The recreated session drops it: the interval throttle
is measured from the fresh `ultimoTimestamp` (the recreation time) and
200 − 100 < 800.  (The old state would also have dropped it.) -/
theorem recreation_interim_counterexample :
    (filterStep { ultimoTextoProcesado := "hola", ultimoTimestamp := 0 }
        "hola" false 200).1 = false ∧
    (filterStep (freshDedupState 100) "hola" false 200).1 = false := by decide

/-- C6 amended: recreating a session's stream resets its dedup state to
`⟨"", recreation time⟩`, so a text accepted just before a forced
recreation is accepted again immediately after the recreation when it
re-arrives as a final event, even within the duplicate-suppression
window of the pre-recreation acceptance (without the recreation the
same final would have been dropped as a duplicate); an interim
re-arrival remains subject to the pacing throttle, now measured from
the recreation time. -/
theorem recreation_resets_dedup (s : String) (T R t : Int) (hs : s ≠ "")
    (hwin : t - T < 1500) :
    freshDedupState R = { ultimoTextoProcesado := "", ultimoTimestamp := R } ∧
    (filterStep { ultimoTextoProcesado := s, ultimoTimestamp := T } s true t).1
      = false ∧
    (filterStep (freshDedupState R) s true t).1 = true := by
  refine ⟨rfl, ?_, ?_⟩
  · rw [filterStep_dup _ s true t rfl hwin]
  · unfold filterStep freshDedupState
    dsimp only
    split_ifs with h1 h2
    · simp at h1
    · simp only [Bool.and_eq_true, beq_iff_eq, decide_eq_true_eq] at h2
      exact absurd h2.1 hs
    · rfl

/-- Witness for the C6 amended theorem: "hola" accepted at T = 0,
recreation at R = 100, final "hola" re-arrives at t = 200 (within the
old suppression window) and is accepted by the fresh state while the
old state would have dropped it. -/
theorem recreation_resets_dedup_witness :
    freshDedupState 100 = { ultimoTextoProcesado := "", ultimoTimestamp := 100 } ∧
    (filterStep { ultimoTextoProcesado := "hola", ultimoTimestamp := 0 }
        "hola" true 200).1 = false ∧
    (filterStep (freshDedupState 100) "hola" true 200).1 = true :=
  recreation_resets_dedup "hola" 0 100 200 (by decide) (by decide)

/-- C2 counterexample: a mid-stream error whose message is not one of
the timeout shapes — here `PERMISSION_DENIED` — arrives while the
participant is still connected and the session is not restarting.  The
claim says every such error sets the restarting flag and schedules a
recreation; the handler matches the message against `"Audio Timeout"` /
`"duration elapsed"` first, so it only logs: the entry is unchanged and
nothing is scheduled. -/
theorem stream_error_nontimeout_counterexample :
    errTriggersRestart "PERMISSION_DENIED: missing credentials" = false ∧
    onStreamError "PERMISSION_DENIED: missing credentials"
        (some ⟨some ⟨false, true⟩, 0, false⟩) =
      (some ⟨some ⟨false, true⟩, 0, false⟩, false) := by
  exact ⟨rfl, rfl⟩

/-- C2 amended: local recovery fires only for stream errors whose
message mentions "Audio Timeout" or "duration elapsed".  For those,
while the participant is still connected and the session is not already
restarting, the handler sets the restarting flag, destroys the old
handle and schedules one delayed recreation; a second such error while
the flag is already true is a no-op, so at most one recreation is in
flight per session.  Any other error message leaves the session
untouched. -/
theorem stream_error_restart_guard (msg : String) (e : UserStreamEntry) :
    (errTriggersRestart msg = true → e.isRestarting = false →
      onStreamError msg (some e) =
        (some { e with
                  isRestarting := true,
                  stream := e.stream.map
                    (fun h => { h with destroyed := true, writable := false }) },
         true)) ∧
    (errTriggersRestart msg = true → e.isRestarting = true →
      onStreamError msg (some e) = (some e, false)) ∧
    (errTriggersRestart msg = false →
      ∀ entry : Option UserStreamEntry, onStreamError msg entry = (entry, false)) := by
  refine ⟨?_, ?_, ?_⟩
  · intro ht hr
    simp [onStreamError, ht, hr]
  · intro ht hr
    simp [onStreamError, ht, hr]
  · intro ht entry
    simp [onStreamError, ht]

/-- Witness for the C2 amended theorem: an "Audio Timeout" error on an
idle session schedules a recreation and flips the flag; the same error
on an already-restarting session is a no-op. -/
theorem stream_error_restart_guard_witness :
    onStreamError "Audio Timeout Error: Long duration elapsed without audio."
        (some ⟨some ⟨false, true⟩, 7, false⟩) =
      (some ⟨some ⟨true, false⟩, 7, true⟩, true) ∧
    onStreamError "Audio Timeout" (some ⟨none, 7, true⟩) =
      (some ⟨none, 7, true⟩, false) :=
  ⟨(stream_error_restart_guard _ _).1 (by decide) rfl,
   (stream_error_restart_guard _ _).2.1 (by decide) rfl⟩

/-- C7: an audio chunk written while the session's restarting flag is
true is dropped silently — the entry (including `lastAudioTime`) is
unchanged, nothing is written and no error is raised; once the flag is
false and a writable, non-destroyed stream handle is installed, a
written chunk is forwarded to the stream (refreshing
`lastAudioTime`). -/
theorem audio_during_restart_dropped (e : UserStreamEntry) (nowT : Int) :
    (e.isRestarting = true →
      wsOnAudioMessage (some e) nowT = (some e, AudioOutcome.dropped)) ∧
    (∀ h : StreamHandle, e.isRestarting = false → e.stream = some h →
      h.destroyed = false → h.writable = true →
      wsOnAudioMessage (some e) nowT =
        (some { e with lastAudioTime := nowT }, AudioOutcome.forwarded)) := by
  constructor
  · intro hr
    simp [wsOnAudioMessage, hr]
  · intro h hr hs hd hw
    simp [wsOnAudioMessage, hr, hs, hd, hw]

/-- Witness for the C7 theorem: the same chunk is dropped while the
flag is true and forwarded once it is false with a writable handle. -/
theorem audio_during_restart_dropped_witness :
    wsOnAudioMessage (some ⟨some ⟨false, true⟩, 0, true⟩) 5 =
      (some ⟨some ⟨false, true⟩, 0, true⟩, AudioOutcome.dropped) ∧
    wsOnAudioMessage (some ⟨some ⟨false, true⟩, 0, false⟩) 5 =
      (some ⟨some ⟨false, true⟩, 5, false⟩, AudioOutcome.forwarded) :=
  ⟨(audio_during_restart_dropped _ 5).1 rfl,
   (audio_during_restart_dropped _ 5).2 _ rfl rfl rfl rfl⟩

/-! ## Room registry lemmas -/

theorem roomJoin_size (room : Option (Finset String)) (p : String)
    (hp : p ∉ roomMembers room) :
    roomSize (roomJoin room p) = roomSize room + 1 :=
  Finset.card_insert_of_not_mem hp

theorem roomLeave_size (room : Option (Finset String)) (p : String)
    (hp : p ∈ roomMembers room) :
    roomSize (roomLeave room p) + 1 = roomSize room := by
  cases room with
  | none => simp [roomMembers] at hp
  | some s =>
    have hc := Finset.card_erase_add_one (show p ∈ s from hp)
    by_cases h2 : s.erase p = ∅
    · have h1 : roomLeave (some s) p = none := by simp [roomLeave, h2]
      have hcard : s.card = 1 := by rw [← hc, h2]; simp
      rw [h1]
      simp [roomSize, roomMembers, hcard]
    · have h1 : roomLeave (some s) p = some (s.erase p) := by simp [roomLeave, h2]
      rw [h1]
      simpa [roomSize, roomMembers] using hc

theorem applyRoomOps_size (ops : List RoomOp) :
    ∀ room, ValidOps room ops →
      roomSize (applyRoomOps room ops) + numLeaves ops =
        roomSize room + numJoins ops := by
  induction ops with
  | nil =>
    intro room _
    simp [applyRoomOps, numLeaves, numJoins]
  | cons op ops ih =>
    intro room hv
    cases op with
    | join p =>
      obtain ⟨hp, hv2⟩ := hv
      have h1 := ih (roomJoin room p) hv2
      have h2 := roomJoin_size room p hp
      simp only [applyRoomOps, numJoins, numLeaves]
      omega
    | leave p =>
      obtain ⟨hp, hv2⟩ := hv
      have h1 := ih (roomLeave room p) hv2
      have h2 := roomLeave_size room p hp
      simp only [applyRoomOps, numJoins, numLeaves]
      omega

theorem applyRoomOps_wf (ops : List RoomOp) :
    ∀ room, RoomWF room → RoomWF (applyRoomOps room ops) := by
  induction ops with
  | nil => intro room h; exact h
  | cons op ops ih =>
    intro room h
    cases op with
    | join p =>
      exact ih _ (by simp [RoomWF, roomJoin])
    | leave p =>
      apply ih
      cases room with
      | none => trivial
      | some s =>
        simp only [roomLeave]
        by_cases h2 : s.erase p = ∅
        · simp [h2, RoomWF]
        · simp [h2, RoomWF]

/-- C8: starting from an absent room record, after any realizable
sequence of N joins and M leaves on one call the member set has size
N − M (stated additively: size + M = N), and the record is absent from
the registry iff that size is zero — it is created on the first join
and deleted exactly when the last member leaves. -/
theorem room_membership_count (ops : List RoomOp) (hv : ValidOps none ops) :
    roomSize (applyRoomOps none ops) + numLeaves ops = numJoins ops ∧
    (applyRoomOps none ops = none ↔ roomSize (applyRoomOps none ops) = 0) := by
  constructor
  · have h := applyRoomOps_size ops none hv
    simpa [roomSize, roomMembers] using h
  · have hwf := applyRoomOps_wf ops none trivial
    cases hres : applyRoomOps none ops with
    | none => simp [roomSize, roomMembers]
    | some s =>
      rw [hres] at hwf
      simp only [roomSize, roomMembers]
      constructor
      · intro h
        simp at h
      · intro hc
        exact absurd (Finset.card_eq_zero.mp hc) hwf

/-- Witness for the C8 theorem: "a" joins, "b" joins, "a" leaves — the
room holds one member and the record still exists. -/
theorem room_membership_count_witness :
    roomSize (applyRoomOps none
        [RoomOp.join "a", RoomOp.join "b", RoomOp.leave "a"]) + 1 = 2 ∧
    (applyRoomOps none [RoomOp.join "a", RoomOp.join "b", RoomOp.leave "a"] = none ↔
      roomSize (applyRoomOps none
        [RoomOp.join "a", RoomOp.join "b", RoomOp.leave "a"]) = 0) :=
  room_membership_count _ (by refine ⟨?_, ?_, ?_, trivial⟩ <;> decide)

/-- C1: for an utterance surviving the filter, when every participant
of the speaker's call (the speaker included) has an open connection and
every per-recipient translation call succeeds, the fan-out produces
exactly one delivery per participant, in order: each recipient gets a
payload whose `traduccion` is the text translated into that recipient's
own extracted target language, whose `targetLang` is that recipient's
language, and whose `isSelf` flag is true exactly when the recipient is
the speaker. -/
theorem fanout_per_recipient (speakerID texto srcLang ts : String)
    (participants : List Participant)
    (translate : String → String → Option String)
    (hconn : ∀ p ∈ participants, p.connected = true)
    (htr : ∀ p ∈ participants,
      ∃ tr, translate texto (extraerCodigoCorto (some p.targetLang)) = some tr) :
    fanOut speakerID texto srcLang ts participants translate =
      participants.map (fun p =>
        (p.userID,
         { userID := speakerID, texto_original := texto,
           traduccion :=
             (translate texto (extraerCodigoCorto (some p.targetLang))).getD "",
           sourceLang := srcLang,
           targetLang := extraerCodigoCorto (some p.targetLang),
           timestamp := ts, isSelf := p.userID == speakerID })) := by
  induction participants with
  | nil => rfl
  | cons p ps ih =>
    have hc := hconn p (List.mem_cons_self p ps)
    obtain ⟨tr, htr1⟩ := htr p (List.mem_cons_self p ps)
    have ih2 := ih (fun q hq => hconn q (List.mem_cons_of_mem p hq))
      (fun q hq => htr q (List.mem_cons_of_mem p hq))
    simp only [fanOut, mkPayload] at ih2 ⊢
    rw [List.filterMap_cons]
    simp only [hc, htr1, Bool.not_true, Bool.false_eq_true, if_false,
      List.map_cons, Option.getD_some, mkPayload]
    rw [ih2]

/-- Witness for the C1 theorem: speaker "A" (target "en") and "B"
(target "fr") share a call; "A" gets the "en" payload with
`isSelf = true`, "B" gets the "fr" payload with `isSelf = false`. -/
theorem fanout_per_recipient_witness :
    fanOut "A" "hola" "es-ES" "t0"
        [⟨"A", "en", true⟩, ⟨"B", "fr", true⟩] tagTranslate =
      [("A", ⟨"A", "hola", "en:hola", "es-ES", "en", "t0", true⟩),
       ("B", ⟨"A", "hola", "fr:hola", "es-ES", "fr", "t0", false⟩)] := by
  rw [fanout_per_recipient "A" "hola" "es-ES" "t0"
    [⟨"A", "en", true⟩, ⟨"B", "fr", true⟩] tagTranslate
    (by decide) (fun p hp => ⟨_, rfl⟩)]
  decide

/-- C9: during fan-out of one accepted utterance, when the translation
call for recipient `r` fails (participant ids are unique, as keys of
the `callParticipants` map), no delivery to `r` is performed, while
every other connected recipient whose translation succeeds still
receives its own payload — one failure skips only that delivery. -/
theorem fanout_failure_isolated (speakerID texto srcLang ts : String)
    (participants : List Participant)
    (translate : String → String → Option String)
    (r : Participant) (hr : r ∈ participants)
    (hkeys : (participants.map Participant.userID).Nodup)
    (hfail : translate texto (extraerCodigoCorto (some r.targetLang)) = none) :
    (∀ pl : Payload,
      (r.userID, pl) ∉ fanOut speakerID texto srcLang ts participants translate) ∧
    (∀ q ∈ participants, q.userID ≠ r.userID → q.connected = true →
      ∀ tr, translate texto (extraerCodigoCorto (some q.targetLang)) = some tr →
        (q.userID,
          mkPayload speakerID texto srcLang ts tr
            (extraerCodigoCorto (some q.targetLang)) q.userID)
          ∈ fanOut speakerID texto srcLang ts participants translate) := by
  constructor
  · intro pl hmem
    obtain ⟨q, hq, hfq⟩ := List.mem_filterMap.mp hmem
    cases hcq : q.connected with
    | false => simp [hcq] at hfq
    | true =>
      simp only [hcq, Bool.not_true, Bool.false_eq_true, if_false] at hfq
      cases htq : translate texto (extraerCodigoCorto (some q.targetLang)) with
      | none => simp [htq] at hfq
      | some tr =>
        simp only [htq, Option.some.injEq, Prod.mk.injEq] at hfq
        have hqr : q = r :=
          List.inj_on_of_nodup_map hkeys hq hr hfq.1
        rw [hqr, hfail] at htq
        cases htq
  · intro q hq hne hcq tr htq
    apply List.mem_filterMap.mpr
    refine ⟨q, hq, ?_⟩
    simp [hcq, htq]

/-- Witness for the C9 theorem: translation to "fr" fails, so "B" gets
nothing, while "A" (target "en") still receives its payload. -/
theorem fanout_failure_isolated_witness :
    ("B", mkPayload "A" "hola" "es-ES" "t0" "X" "fr" "B") ∉
      fanOut "A" "hola" "es-ES" "t0"
        [⟨"A", "en", true⟩, ⟨"B", "fr", true⟩] failFrTranslate ∧
    ("A", mkPayload "A" "hola" "es-ES" "t0" "en:hola" "en" "A") ∈
      fanOut "A" "hola" "es-ES" "t0"
        [⟨"A", "en", true⟩, ⟨"B", "fr", true⟩] failFrTranslate :=
  ⟨(fanout_failure_isolated "A" "hola" "es-ES" "t0"
      [⟨"A", "en", true⟩, ⟨"B", "fr", true⟩] failFrTranslate
      ⟨"B", "fr", true⟩ (by decide) (by decide) rfl).1 _,
   (fanout_failure_isolated "A" "hola" "es-ES" "t0"
      [⟨"A", "en", true⟩, ⟨"B", "fr", true⟩] failFrTranslate
      ⟨"B", "fr", true⟩ (by decide) (by decide) rfl).2
     ⟨"A", "en", true⟩ (by decide) (by decide) rfl "en:hola" rfl⟩

/-- C10 counterexample: the input "ES" is not one of the mapped
two-letter codes (the table keys are lowercase) and contains no "-",
so the claim's third part predicts the fallback "en-US"; the code
lowercases the input before the table lookup and returns "es-ES". -/
theorem normalizer_case_counterexample :
    normalizarCodigoIdioma (some "ES") = "es-ES" ∧
    strHasChar "ES" '-' = false ∧
    mapeo.lookup "ES" = none ∧
    normalizarCodigoIdioma (some "ES") ≠ "en-US" := by decide

/-- C10 amended: for every code in the mapping table the short-code
round trip is the identity; every string containing "-" with length
greater than 2 passes through `normalizarCodigoIdioma` unchanged; every
other input whose lowercased form is not a key of the table — and the
null/undefined/empty inputs — yields the fallback "en-US" (inputs whose
lowercased form is a mapped key, such as "ES", normalize to that key's
full tag instead). -/
theorem normalizer_roundtrip_amended :
    (∀ p ∈ mapeo,
      extraerCodigoCorto (some (normalizarCodigoIdioma (some p.1))) = p.1) ∧
    (∀ c : String, strHasChar c '-' = true → 2 < c.length →
      normalizarCodigoIdioma (some c) = c) ∧
    (∀ c : String, ¬(strHasChar c '-' = true ∧ 2 < c.length) →
      mapeo.lookup (strLower (if c == "" then "en" else c)) = none →
      normalizarCodigoIdioma (some c) = "en-US") ∧
    normalizarCodigoIdioma none = "en-US" ∧
    normalizarCodigoIdioma (some "") = "en-US" := by
  refine ⟨by decide, ?_, ?_, by decide, by decide⟩
  · intro c h1 h2
    have hne : (c == "") = false := by
      rcases eq_or_ne c "" with rfl | h
      · simp at h2
      · exact beq_eq_false_iff_ne.mpr h
    simp [normalizarCodigoIdioma, jsTruthy, hne, h1, h2]
  · intro c hno hlook
    by_cases hce : (c == "") = true
    · rw [eq_of_beq hce] at hlook
      exact absurd hlook (by decide)
    · rw [Bool.not_eq_true] at hce
      simp only [hce, Bool.false_eq_true, if_false] at hlook
      have hcond : (jsTruthy (some c) && strHasChar c '-'
          && decide (2 < c.length)) = false := by
        rw [Bool.eq_false_iff]
        intro hx
        rw [Bool.and_eq_true, Bool.and_eq_true] at hx
        exact hno ⟨hx.1.2, of_decide_eq_true hx.2⟩
      simp [normalizarCodigoIdioma, hcond, hce, hlook]

/-- Witness for the C10 amended theorem: a regional tag passes through
unchanged and an unmapped code falls back to "en-US". -/
theorem normalizer_roundtrip_amended_witness :
    normalizarCodigoIdioma (some "fr-CA") = "fr-CA" ∧
    normalizarCodigoIdioma (some "xx") = "en-US" :=
  ⟨normalizer_roundtrip_amended.2.1 "fr-CA" (by decide) (by decide),
   normalizer_roundtrip_amended.2.2.1 "xx" (by decide) (by decide)⟩

end Galaxia
